import Mathlib

/-!
Verification of the floating-point comparison core of the `numtest` crate
(`src/compare.rs` and `src/precision.rs`).

Modelling choices (shallow embedding):
* An IEEE-754 value of either width is modelled by the inductive type `FP`:
  `nan` (sign of NaN is never observed by the code), a signed infinity
  `inf b` (`b = true` for `+∞`), the negative zero `negZero`, and `fin q`
  for every other finite value, carried as an exact rational (`fin 0` is
  `+0.0`).  Finite arithmetic (`-`, `*`, `/`, `abs`, `10.0.powi`) is
  modelled exactly over `ℚ`: no rounding and no overflow to infinity.
  The special-value propagation of every operation follows IEEE-754 as
  the Rust code relies on it.
* The per-width constants of the `Precision` trait become a `Precision`
  structure with one instance per width (`f32Precision`, `f64Precision`).
* The two `while` loops of the achieved-decimal-precision search are
  embedded as structurally recursive functions on an explicit fuel that
  is chosen, at the call site, to be exactly the number of iterations the
  Rust loop guard still allows (`incLoop`/`decLoop`), so the functions
  compute by kernel reduction and mirror the loops step for step.
-/

/-- A floating-point value of a fixed width: NaN (sign ignored, as in the
source), a signed infinity (`true` = positive), the negative zero, or any
other finite value represented exactly by a rational (`fin 0` is `+0.0`). -/
inductive FP where
  | nan : FP
  | inf : Bool → FP
  | negZero : FP
  | fin : ℚ → FP
deriving DecidableEq, Repr

namespace FP

/-- Rust `f32::is_nan` / `f64::is_nan`. -/
def is_nan : FP → Bool
  | nan => true
  | _ => false

/-- Rust `f32::is_infinite` / `f64::is_infinite`. -/
def is_infinite : FP → Bool
  | inf _ => true
  | _ => false

/-- The exact rational value of a finite float (junk `0` on NaN/infinities,
which the code never queries). -/
def rat : FP → ℚ
  | fin q => q
  | _ => 0

/-- Rust `==` on floats: `false` whenever a NaN is involved, sign of zero
ignored, infinities equal only with equal sign. -/
def feq : FP → FP → Bool
  | nan, _ => false
  | _, nan => false
  | inf p, inf q => p == q
  | inf _, _ => false
  | _, inf _ => false
  | x, y => decide (x.rat = y.rat)

/-- Rust `f32::signum` / `f64::signum`: `NaN → NaN`, `1` for positive values
(including `+0.0` and `+∞`), `-1` for negative ones. -/
def signum : FP → FP
  | nan => nan
  | inf p => fin (if p then 1 else -1)
  | negZero => fin (-1)
  | fin q => fin (if q < 0 then -1 else 1)

/-- Float subtraction; finite differences are exact. -/
def sub : FP → FP → FP
  | nan, _ => nan
  | _, nan => nan
  | inf p, inf q => if p == q then nan else inf p
  | inf p, _ => inf p
  | _, inf q => inf (!q)
  | x, y => fin (x.rat - y.rat)

/-- Float multiplication; finite products are exact. -/
def mul : FP → FP → FP
  | nan, _ => nan
  | _, nan => nan
  | inf p, inf q => inf (p == q)
  | inf p, y => if y.rat = 0 then nan else inf (p == decide (0 < y.rat))
  | x, inf q => if x.rat = 0 then nan else inf (q == decide (0 < x.rat))
  | x, y => fin (x.rat * y.rat)

/-- Float division; finite quotients are exact. -/
def div : FP → FP → FP
  | nan, _ => nan
  | _, nan => nan
  | inf _, inf _ => nan
  | inf p, y => if y.rat < 0 then inf (!p) else inf p
  | _, inf _ => fin 0
  | x, y =>
      if y.rat = 0 then (if x.rat = 0 then nan else inf (decide (0 < x.rat)))
      else fin (x.rat / y.rat)

/-- Rust `f32::abs` / `f64::abs`. -/
def abs : FP → FP
  | nan => nan
  | inf _ => inf true
  | negZero => fin 0
  | fin q => fin |q|

/-- Rust `<=` on floats: `false` whenever a NaN is involved. -/
def le : FP → FP → Bool
  | nan, _ => false
  | _, nan => false
  | inf true, inf true => true
  | inf true, _ => false
  | _, inf true => true
  | inf false, _ => true
  | _, inf false => false
  | x, y => decide (x.rat ≤ y.rat)

/-- Rust `f32::max` / `f64::max`: if one argument is NaN the other is
returned, otherwise the usual maximum. -/
def max (a b : FP) : FP :=
  if a.is_nan then b else if b.is_nan then a else if le a b then b else a

end FP

/-- Rust `10.0.powi(e)`, modelled exactly over `ℚ` (no rounding, no
overflow/underflow). -/
def powi10 (e : ℤ) : FP := FP.fin ((10 : ℚ) ^ e)

/-- The per-width constants of the `Precision` trait in `precision.rs`. -/
structure Precision where
  max_decimal : ℕ
  max_10_exp : ℤ
  min_10_exp : ℤ
  epsilon : ℚ

/-- The `impl Precision for f32`: `(7, 38, -37, 2⁻²³)`. -/
def f32Precision : Precision := ⟨7, 38, -37, 1 / 2 ^ 23⟩

/-- The `impl Precision for f64`: `(15, 308, -307, 2⁻⁵²)`. -/
def f64Precision : Precision := ⟨15, 308, -307, 1 / 2 ^ 52⟩

/-- The test `(self - other).abs() <= 1.5 * 10.0.powi(-d)` from
`is_equal_to_decimal`. -/
def cmpTest (a b : FP) (d : ℤ) : Bool :=
  FP.le (FP.abs (FP.sub a b)) (FP.mul (FP.fin (3 / 2)) (powi10 (-d)))

/-- One step of the increment loop of `is_equal_to_decimal`, on fuel:
`while new_result && actual_decimal < ceil { actual_decimal += 1;
new_result = test(actual_decimal) }`. -/
def incLoopGo : ℕ → (ℤ → Bool) → ℤ → ℤ → Bool → ℤ
  | 0, _, _, actual, _ => actual
  | n + 1, test, ceil, actual, r =>
      if r = true ∧ actual < ceil then incLoopGo n test ceil (actual + 1) (test (actual + 1))
      else actual

/-- The increment loop itself: the fuel `(ceil - actual).toNat` is exactly
the number of further iterations the guard `actual < ceil` allows. -/
def incLoop (test : ℤ → Bool) (ceil actual : ℤ) (r : Bool) : ℤ :=
  incLoopGo (ceil - actual).toNat test ceil actual r

/-- One step of the decrement loop of `is_equal_to_decimal`, on fuel:
`while !new_result && actual_decimal > floor { actual_decimal -= 1;
new_result = test(actual_decimal) }`. -/
def decLoopGo : ℕ → (ℤ → Bool) → ℤ → ℤ → Bool → ℤ
  | 0, _, _, actual, _ => actual
  | n + 1, test, floor, actual, r =>
      if r = false ∧ floor < actual then decLoopGo n test floor (actual - 1) (test (actual - 1))
      else actual

/-- The decrement loop itself. -/
def decLoop (test : ℤ → Bool) (floor actual : ℤ) (r : Bool) : ℤ :=
  decLoopGo (actual - floor).toNat test floor actual r

/-- `Compare::is_equal` from `compare.rs`. -/
def is_equal (a b : FP) : Bool :=
  if a.is_nan || b.is_nan then a.is_nan && b.is_nan
  else FP.feq a b

/-- `Compare::is_equal_to_decimal` from `compare.rs`, for the width whose
`Precision` constants are `P`. -/
def is_equal_to_decimal (P : Precision) (a b : FP) (decimal : ℤ) : Bool × ℤ :=
  if a.is_nan || b.is_nan then
    if a.is_nan && b.is_nan then (true, |P.min_10_exp|)
    else (decide (decimal = -P.max_10_exp), -P.max_10_exp)
  else if a.is_infinite || b.is_infinite then
    if (a.is_infinite && b.is_infinite) && FP.feq a b then (true, |P.min_10_exp|)
    else (decide (decimal = -P.max_10_exp), -P.max_10_exp)
  else
    let result := cmpTest a b decimal
    let actual :=
      if result then
        let a1 := incLoop (cmpTest a b) |P.min_10_exp| decimal result
        if a1 < |P.min_10_exp| then a1 - 1 else a1
      else
        decLoop (cmpTest a b) (-P.max_10_exp) decimal result
    (result, actual)

/-- `Compare::is_equal_to_atol` from `compare.rs`. -/
def is_equal_to_atol (a b atol : FP) : Bool × FP :=
  if a.is_nan && b.is_nan then (true, FP.fin 0)
  else if a.is_nan || b.is_nan then (atol.is_nan, FP.nan)
  else if (a.is_infinite && b.is_infinite) && FP.feq (FP.signum a) (FP.signum b) then
    (true, FP.fin 0)
  else
    let abs_diff := FP.abs (FP.sub a b)
    (FP.le abs_diff atol, abs_diff)

/-- `Compare::is_equal_to_rtol` from `compare.rs`. -/
def is_equal_to_rtol (a b rtol : FP) : Bool × FP :=
  if FP.feq a (FP.fin 0) && FP.feq b (FP.fin 0) then (true, FP.fin 0)
  else if a.is_nan && b.is_nan then (true, FP.fin 0)
  else if a.is_infinite && b.is_infinite then
    if FP.feq (FP.signum a) (FP.signum b) then (true, FP.fin 0)
    else (FP.feq rtol (FP.fin 1), FP.fin 1)
  else if a.is_nan || b.is_nan then (FP.feq rtol (FP.fin 1), FP.fin 1)
  else if a.is_infinite || b.is_infinite then (FP.feq rtol (FP.fin 1), FP.fin 1)
  else
    let abs_diff := FP.abs (FP.sub a b)
    let mx := FP.max (FP.abs a) (FP.abs b)
    (FP.le abs_diff (FP.mul rtol mx), FP.div abs_diff mx)

/-- The real-number relation "equal to `d` decimal places":
`|a - b| ≤ 1.5 * 10^(-d)`. -/
def decimalHolds (x y : ℚ) (d : ℤ) : Prop := |x - y| ≤ 3 / 2 * (10 : ℚ) ^ (-d)

instance (x y : ℚ) (d : ℤ) : Decidable (decimalHolds x y d) :=
  inferInstanceAs (Decidable (_ ≤ _))

/-- Mirror of `is_equal_to_decimal` whose two search loops run on an
arbitrary fuel instead of the exact iteration count. -/
def is_equal_to_decimal_fuel (fuel : ℕ) (P : Precision) (a b : FP) (decimal : ℤ) : Bool × ℤ :=
  if a.is_nan || b.is_nan then
    if a.is_nan && b.is_nan then (true, |P.min_10_exp|)
    else (decide (decimal = -P.max_10_exp), -P.max_10_exp)
  else if a.is_infinite || b.is_infinite then
    if (a.is_infinite && b.is_infinite) && FP.feq a b then (true, |P.min_10_exp|)
    else (decide (decimal = -P.max_10_exp), -P.max_10_exp)
  else
    let result := cmpTest a b decimal
    let actual :=
      if result then
        let a1 := incLoopGo fuel (cmpTest a b) |P.min_10_exp| decimal result
        if a1 < |P.min_10_exp| then a1 - 1 else a1
      else
        decLoopGo fuel (cmpTest a b) (-P.max_10_exp) decimal result
    (result, actual)

/-- The edge-case table of `is_equal_to_atol` as the specification states
it, written independently of the implementation: both NaN → `(true, 0.0)`;
exactly one NaN → `(atol.is_nan(), NaN)`; both infinite with equal sign →
`(true, 0.0)`; one-sided or opposite-signed infinities → difference
`+Infinity` with verdict true exactly when `atol` is `+Infinity`; otherwise
`(|a - b| <= atol, |a - b|)`. -/
def is_equal_to_atol_spec (a b atol : FP) : Bool × FP :=
  if a.is_nan && b.is_nan then (true, FP.fin 0)
  else if a.is_nan || b.is_nan then (atol.is_nan, FP.nan)
  else if (a.is_infinite && b.is_infinite) && FP.feq a b then (true, FP.fin 0)
  else if a.is_infinite || b.is_infinite then (decide (atol = FP.inf true), FP.inf true)
  else (FP.le (FP.fin |a.rat - b.rat|) atol, FP.fin |a.rat - b.rat|)

theorem incLoopGo_of_false (n : ℕ) (test : ℤ → Bool) (ceil x : ℤ) :
    incLoopGo n test ceil x false = x := by
  cases n <;> simp [incLoopGo]

theorem incLoop_eq (test : ℤ → Bool) (ceil x : ℤ) (r : Bool) :
    incLoop test ceil x r =
      if r = true ∧ x < ceil then incLoop test ceil (x + 1) (test (x + 1)) else x := by
  unfold incLoop
  by_cases hx : x < ceil
  · have h : (ceil - x).toNat = (ceil - (x + 1)).toNat + 1 := by omega
    rw [h]
    simp only [incLoopGo]
  · have h : (ceil - x).toNat = 0 := by omega
    rw [h]
    simp [incLoopGo, hx]

theorem incLoop_of_false (test : ℤ → Bool) (ceil x : ℤ) :
    incLoop test ceil x false = x := by
  rw [incLoop_eq]; simp

theorem incLoop_spec (test : ℤ → Bool) (ceil : ℤ) :
    ∀ n : ℕ, ∀ d : ℤ, (ceil - d).toNat = n → d ≤ ceil → test d = true →
      d ≤ incLoop test ceil d true ∧ incLoop test ceil d true ≤ ceil ∧
      (∀ k, d ≤ k → k < incLoop test ceil d true → test k = true) ∧
      (incLoop test ceil d true = ceil ∨ test (incLoop test ceil d true) = false) := by
  intro n
  induction n with
  | zero =>
    intro d h0 hd ht
    have hde : d = ceil := by omega
    subst hde
    rw [incLoop_eq, if_neg (fun h => lt_irrefl d h.2)]
    exact ⟨le_refl _, le_refl _, fun k hk1 hk2 => absurd (lt_of_le_of_lt hk1 hk2) (lt_irrefl d),
      Or.inl rfl⟩
  | succ n ih =>
    intro d hn hd ht
    have hdc : d < ceil := by omega
    rw [incLoop_eq, if_pos ⟨rfl, hdc⟩]
    by_cases h1 : test (d + 1) = true
    · rw [h1]
      obtain ⟨s1, s2, s3, s4⟩ := ih (d + 1) (by omega) (by omega) h1
      refine ⟨by omega, s2, fun k hk1 hk2 => ?_, s4⟩
      rcases eq_or_lt_of_le hk1 with h | h
      · exact h ▸ ht
      · exact s3 k (by omega) hk2
    · have h1f : test (d + 1) = false := by
        cases h : test (d + 1) with
        | true => exact absurd h h1
        | false => rfl
      rw [h1f, incLoop_of_false]
      exact ⟨by omega, by omega, fun k hk1 hk2 => by rw [show k = d by omega]; exact ht,
        Or.inr h1f⟩

theorem decLoopGo_of_true (n : ℕ) (test : ℤ → Bool) (floor x : ℤ) :
    decLoopGo n test floor x true = x := by
  cases n <;> simp [decLoopGo]

theorem decLoop_eq (test : ℤ → Bool) (floor x : ℤ) (r : Bool) :
    decLoop test floor x r =
      if r = false ∧ floor < x then decLoop test floor (x - 1) (test (x - 1)) else x := by
  unfold decLoop
  by_cases hx : floor < x
  · have h : (x - floor).toNat = (x - 1 - floor).toNat + 1 := by omega
    rw [h]
    simp only [decLoopGo]
  · have h : (x - floor).toNat = 0 := by omega
    rw [h]
    simp [decLoopGo, hx]

theorem decLoop_of_true (test : ℤ → Bool) (floor x : ℤ) :
    decLoop test floor x true = x := by
  rw [decLoop_eq]; simp

theorem decLoop_spec (test : ℤ → Bool) (floor : ℤ) :
    ∀ n : ℕ, ∀ d : ℤ, (d - floor).toNat = n → floor ≤ d → test d = false →
      floor ≤ decLoop test floor d false ∧ decLoop test floor d false ≤ d ∧
      (∀ k, decLoop test floor d false < k → k ≤ d → test k = false) ∧
      (decLoop test floor d false = floor ∨ test (decLoop test floor d false) = true) := by
  intro n
  induction n with
  | zero =>
    intro d h0 hd ht
    have hde : d = floor := by omega
    subst hde
    rw [decLoop_eq, if_neg (fun h => lt_irrefl d h.2)]
    exact ⟨le_refl _, le_refl _, fun k hk1 hk2 => absurd (lt_of_lt_of_le hk1 hk2) (lt_irrefl d),
      Or.inl rfl⟩
  | succ n ih =>
    intro d hn hd ht
    have hdc : floor < d := by omega
    rw [decLoop_eq, if_pos ⟨rfl, hdc⟩]
    by_cases h1 : test (d - 1) = true
    · rw [h1, decLoop_of_true]
      exact ⟨by omega, by omega, fun k hk1 hk2 => by rw [show k = d by omega]; exact ht,
        Or.inr h1⟩
    · have h1f : test (d - 1) = false := by
        cases h : test (d - 1) with
        | true => exact absurd h h1
        | false => rfl
      rw [h1f]
      obtain ⟨s1, s2, s3, s4⟩ := ih (d - 1) (by omega) (by omega) h1f
      refine ⟨s1, by omega, fun k hk1 hk2 => ?_, s4⟩
      rcases eq_or_lt_of_le hk2 with h | h
      · exact h ▸ ht
      · exact s3 k hk1 (by omega)

theorem is_equal_to_decimal_fst (P : Precision) (a b : FP) (d : ℤ)
    (hna : a.is_nan = false) (hnb : b.is_nan = false)
    (hia : a.is_infinite = false) (hib : b.is_infinite = false) :
    (is_equal_to_decimal P a b d).1 = cmpTest a b d := by
  simp [is_equal_to_decimal, hna, hnb, hia, hib]

theorem is_equal_to_decimal_snd_of_true (P : Precision) (a b : FP) (d : ℤ)
    (hna : a.is_nan = false) (hnb : b.is_nan = false)
    (hia : a.is_infinite = false) (hib : b.is_infinite = false)
    (hr : cmpTest a b d = true) :
    (is_equal_to_decimal P a b d).2 =
      (if incLoop (cmpTest a b) |P.min_10_exp| d true < |P.min_10_exp| then
        incLoop (cmpTest a b) |P.min_10_exp| d true - 1
      else incLoop (cmpTest a b) |P.min_10_exp| d true) := by
  simp [is_equal_to_decimal, hna, hnb, hia, hib, hr]

theorem is_equal_to_decimal_snd_of_false (P : Precision) (a b : FP) (d : ℤ)
    (hna : a.is_nan = false) (hnb : b.is_nan = false)
    (hia : a.is_infinite = false) (hib : b.is_infinite = false)
    (hr : cmpTest a b d = false) :
    (is_equal_to_decimal P a b d).2 = decLoop (cmpTest a b) (-P.max_10_exp) d false := by
  simp [is_equal_to_decimal, hna, hnb, hia, hib, hr]

theorem cmpTest_eq_decide (a b : FP) (d : ℤ)
    (hna : a.is_nan = false) (hnb : b.is_nan = false)
    (hia : a.is_infinite = false) (hib : b.is_infinite = false) :
    cmpTest a b d = decide (decimalHolds a.rat b.rat d) := by
  cases a <;> cases b <;>
    simp_all [cmpTest, FP.le, FP.sub, FP.abs, FP.mul, FP.rat, FP.is_nan, FP.is_infinite,
      powi10, decimalHolds]

theorem decimalHolds_mono (x y : ℚ) (j k : ℤ) (hjk : j ≤ k) (h : decimalHolds x y k) :
    decimalHolds x y j := by
  unfold decimalHolds at h ⊢
  have hp : (10 : ℚ) ^ (-k) ≤ (10 : ℚ) ^ (-j) :=
    zpow_le_zpow_right₀ (by norm_num) (neg_le_neg hjk)
  nlinarith [h, hp]

theorem feq_fin_one_iff (t : FP) : FP.feq t (FP.fin 1) = true ↔ t = FP.fin 1 := by
  cases t <;> simp [FP.feq, FP.rat]

theorem le_inf_true_iff (t : FP) : FP.le (FP.inf true) t = decide (t = FP.inf true) := by
  cases t with
  | nan => simp [FP.le]
  | inf p => cases p <;> simp [FP.le]
  | negZero => simp [FP.le]
  | fin q => simp [FP.le]

theorem max_fin_fin (u v : ℚ) : FP.max (FP.fin u) (FP.fin v) = FP.fin (u ⊔ v) := by
  by_cases h : u ≤ v
  · have hle : FP.le (FP.fin u) (FP.fin v) = true := by simp [FP.le, FP.rat, h]
    simp [FP.max, FP.is_nan, hle, sup_eq_right.mpr h]
  · have hle : FP.le (FP.fin u) (FP.fin v) = false := by simp [FP.le, FP.rat, h]
    simp [FP.max, FP.is_nan, hle, sup_eq_left.mpr (le_of_not_le h)]

/-- Claim C5 (confirmed): `is_equal(a, b)` is true iff both operands are NaN
(sign of NaN ignored), or neither is NaN and `a` equals `b` under standard
float equality; in particular `+0.0` equals `-0.0`, same-signed infinities
are equal, and `+Inf` is not equal to `-Inf`. -/
theorem is_equal_characterization :
    (∀ a b : FP, is_equal a b = true ↔
      ((a.is_nan = true ∧ b.is_nan = true) ∨
       (a.is_nan = false ∧ b.is_nan = false ∧ FP.feq a b = true))) ∧
    is_equal FP.negZero (FP.fin 0) = true ∧
    is_equal (FP.fin 0) FP.negZero = true ∧
    is_equal (FP.inf true) (FP.inf true) = true ∧
    is_equal (FP.inf false) (FP.inf false) = true ∧
    is_equal (FP.inf true) (FP.inf false) = false ∧
    is_equal FP.nan FP.nan = true ∧
    is_equal FP.nan (FP.fin 0) = false := by
  refine ⟨fun a b => ?_, by decide, by decide, by decide, by decide, by decide, by decide,
    by decide⟩
  cases a <;> cases b <;> simp [is_equal, FP.is_nan, FP.feq]

/-- Claim C3 (confirmed): for operands that are neither NaN nor infinite and
any requested `decimal` (negative allowed), the verdict of
`is_equal_to_decimal` is true iff `|a - b| <= 1.5 * 10^(-decimal)`. -/
theorem is_equal_to_decimal_verdict_iff (P : Precision) (a b : FP) (d : ℤ)
    (hna : a.is_nan = false) (hnb : b.is_nan = false)
    (hia : a.is_infinite = false) (hib : b.is_infinite = false) :
    ((is_equal_to_decimal P a b d).1 = true ↔
      |a.rat - b.rat| ≤ 3 / 2 * (10 : ℚ) ^ (-d)) := by
  rw [is_equal_to_decimal_fst P a b d hna hnb hia hib, cmpTest_eq_decide a b d hna hnb hia hib]
  simp [decimalHolds]

/-- Witness for C3 at `a = 1`, `b = 2`, `decimal = -1` (negative decimal). -/
theorem is_equal_to_decimal_verdict_iff_witness :
    (FP.fin (1 : ℚ)).is_nan = false ∧ (FP.fin (2 : ℚ)).is_nan = false ∧
    (FP.fin (1 : ℚ)).is_infinite = false ∧ (FP.fin (2 : ℚ)).is_infinite = false ∧
    ((is_equal_to_decimal f64Precision (FP.fin 1) (FP.fin 2) (-1)).1 = true ↔
      |(FP.fin (1 : ℚ)).rat - (FP.fin (2 : ℚ)).rat| ≤ 3 / 2 * (10 : ℚ) ^ (-(-1 : ℤ))) :=
  ⟨rfl, rfl, rfl, rfl,
    is_equal_to_decimal_verdict_iff f64Precision (FP.fin 1) (FP.fin 2) (-1) rfl rfl rfl rfl⟩

/-- Claim C2 (code bug): at `a = 1.0`, `b = -1.0`, `rtol = 0.5` the standard
branch of `is_equal_to_rtol` reports the relative difference
`|a-b| / max(|a|,|b|) = 2`, which exceeds `1`: the metric is not clamped to
`[0, 1]`, contradicting the function's own documentation. -/
theorem rtol_metric_exceeds_one :
    (is_equal_to_rtol (FP.fin 1) (FP.fin (-1)) (FP.fin (1 / 2))).2 = FP.fin 2 ∧
    (1 : ℚ) < (FP.fin (2 : ℚ)).rat := by
  constructor
  · norm_num [is_equal_to_rtol, FP.feq, FP.rat, FP.is_nan, FP.is_infinite, FP.sub, FP.abs,
      FP.mul, FP.div, FP.le, max_fin_fin]
  · norm_num [FP.rat]

/-- Claim C4 (confirmed): `is_equal_to_atol` agrees everywhere with the
edge-case table stated by the specification: `(true, 0.0)` for two NaNs,
`(atol.is_nan(), NaN)` for exactly one NaN, `(true, 0.0)` for same-signed
infinities, difference `+Infinity` (verdict true iff `atol = +Inf`) for
one-sided or opposite-signed infinities, and `(|a-b| <= atol, |a-b|)`
otherwise. -/
theorem is_equal_to_atol_matches_spec (a b atol : FP) :
    is_equal_to_atol a b atol = is_equal_to_atol_spec a b atol := by
  cases a <;> cases b <;>
    try (norm_num [is_equal_to_atol, is_equal_to_atol_spec, FP.is_nan, FP.is_infinite, FP.feq,
      FP.signum, FP.sub, FP.abs, FP.rat, le_inf_true_iff])
  all_goals
    rename_i p q
  all_goals
    cases p <;> cases q <;>
      norm_num [is_equal_to_atol, is_equal_to_atol_spec, FP.is_nan, FP.is_infinite, FP.feq,
        FP.signum, FP.sub, FP.abs, FP.rat, le_inf_true_iff]

/-- Claim C6 (confirmed): when exactly one operand is NaN, or exactly one is
infinite with the other not NaN, or both are infinite with opposite signs,
`is_equal_to_rtol` returns exactly `(rtol == 1.0, 1.0)`, and that verdict is
true iff `rtol` is exactly `1.0` (false even for `rtol > 1.0`). -/
theorem is_equal_to_rtol_unit_difference_cases (a b rtol : FP)
    (h : (a.is_nan ≠ b.is_nan) ∨
         (a.is_nan = false ∧ b.is_nan = false ∧ a.is_infinite ≠ b.is_infinite) ∨
         (a.is_infinite = true ∧ b.is_infinite = true ∧
           FP.feq (FP.signum a) (FP.signum b) = false)) :
    is_equal_to_rtol a b rtol = (FP.feq rtol (FP.fin 1), FP.fin 1) ∧
    (FP.feq rtol (FP.fin 1) = true ↔ rtol = FP.fin 1) := by
  refine ⟨?_, feq_fin_one_iff rtol⟩
  cases a <;> cases b <;>
    simp_all [is_equal_to_rtol, FP.is_nan, FP.is_infinite, FP.feq, FP.signum, FP.rat]

/-- Witness for C6 at `a = NaN`, `b = 0.0`, `rtol = 2.0`. -/
theorem is_equal_to_rtol_unit_difference_cases_witness :
    (FP.nan.is_nan ≠ (FP.fin (0 : ℚ)).is_nan) ∧
    (is_equal_to_rtol FP.nan (FP.fin 0) (FP.fin 2) =
      (FP.feq (FP.fin 2) (FP.fin 1), FP.fin 1) ∧
     (FP.feq (FP.fin 2) (FP.fin 1) = true ↔ FP.fin 2 = FP.fin 1)) :=
  ⟨by simp [FP.is_nan],
    is_equal_to_rtol_unit_difference_cases FP.nan (FP.fin 0) (FP.fin 2)
      (Or.inl (by simp [FP.is_nan]))⟩

/-- Claim C7 (confirmed): the verdict of `is_equal_to_rtol` is symmetric in
its two operands, for every combination of finite, zero, NaN and infinite
operands and every `rtol`. -/
theorem is_equal_to_rtol_symmetric (a b rtol : FP) :
    (is_equal_to_rtol a b rtol).1 = (is_equal_to_rtol b a rtol).1 := by
  cases a <;> cases b <;>
    try (simp [is_equal_to_rtol, FP.is_nan, FP.is_infinite, FP.feq, FP.signum, FP.rat, FP.sub,
      FP.abs, max_fin_fin, abs_sub_comm, sup_comm, Bool.and_comm])
  all_goals rename_i p q
  all_goals
    cases p <;> cases q <;>
      norm_num [is_equal_to_rtol, FP.is_nan, FP.is_infinite, FP.feq, FP.signum, FP.rat,
        FP.sub, FP.abs]

/-- Claim C8 (confirmed): if `is_equal_to_decimal(a, b, d)` holds then it
also holds at `d - 1`, provided `d - 1 >= -max_10_exp`; this covers every
combination of finite, NaN and infinite operands. -/
theorem is_equal_to_decimal_monotone (P : Precision) (a b : FP) (d : ℤ)
    (h1 : (is_equal_to_decimal P a b d).1 = true)
    (h2 : -P.max_10_exp ≤ d - 1) :
    (is_equal_to_decimal P a b (d - 1)).1 = true := by
  by_cases hn : (a.is_nan || b.is_nan) = true
  · unfold is_equal_to_decimal at h1 ⊢
    rw [if_pos hn] at h1 ⊢
    by_cases hb : (a.is_nan && b.is_nan) = true
    · rw [if_pos hb]
    · rw [if_neg hb] at h1 ⊢
      simp only [decide_eq_true_eq] at h1 ⊢
      omega
  · by_cases hi : (a.is_infinite || b.is_infinite) = true
    · unfold is_equal_to_decimal at h1 ⊢
      rw [if_neg hn, if_pos hi] at h1 ⊢
      by_cases hb : ((a.is_infinite && b.is_infinite) && FP.feq a b) = true
      · rw [if_pos hb]
      · rw [if_neg hb] at h1 ⊢
        simp only [decide_eq_true_eq] at h1 ⊢
        omega
    · have hflags : a.is_nan = false ∧ b.is_nan = false ∧
          a.is_infinite = false ∧ b.is_infinite = false := by
        revert hn hi
        cases a.is_nan <;> cases b.is_nan <;> cases a.is_infinite <;> cases b.is_infinite <;>
          simp
      obtain ⟨f1, f2, f3, f4⟩ := hflags
      rw [is_equal_to_decimal_fst P a b d f1 f2 f3 f4,
        cmpTest_eq_decide a b d f1 f2 f3 f4] at h1
      rw [is_equal_to_decimal_fst P a b (d - 1) f1 f2 f3 f4,
        cmpTest_eq_decide a b (d - 1) f1 f2 f3 f4]
      simp only [decide_eq_true_eq] at h1 ⊢
      exact decimalHolds_mono _ _ _ _ (by omega) h1

/-- Witness for C8 at `a = 1`, `b = 0`, `d = 0` on the 32-bit profile. -/
theorem is_equal_to_decimal_monotone_witness :
    ((is_equal_to_decimal f32Precision (FP.fin 1) (FP.fin 0) 0).1 = true) ∧
    (-f32Precision.max_10_exp ≤ (0 : ℤ) - 1) ∧
    ((is_equal_to_decimal f32Precision (FP.fin 1) (FP.fin 0) (0 - 1)).1 = true) := by
  have hfst : (is_equal_to_decimal f32Precision (FP.fin 1) (FP.fin 0) 0).1 = true := by
    rw [is_equal_to_decimal_fst f32Precision (FP.fin 1) (FP.fin 0) 0 rfl rfl rfl rfl,
      cmpTest_eq_decide (FP.fin 1) (FP.fin 0) 0 rfl rfl rfl rfl]
    norm_num [decimalHolds, FP.rat]
  have hr : -f32Precision.max_10_exp ≤ (0 : ℤ) - 1 := by norm_num [f32Precision]
  exact ⟨hfst, hr, is_equal_to_decimal_monotone f32Precision (FP.fin 1) (FP.fin 0) 0 hfst hr⟩

/-- Claim C10 (confirmed): for any operands (finite, NaN or infinite) and a
requested decimal inside `[-max_10_exp, min_10_exp.abs()]`, the achieved
decimal precision returned by `is_equal_to_decimal` also lies inside
`[-max_10_exp, min_10_exp.abs()]`. -/
theorem is_equal_to_decimal_metric_range (P : Precision) (a b : FP) (d : ℤ)
    (h1 : -P.max_10_exp ≤ d) (h2 : d ≤ |P.min_10_exp|) :
    -P.max_10_exp ≤ (is_equal_to_decimal P a b d).2 ∧
    (is_equal_to_decimal P a b d).2 ≤ |P.min_10_exp| := by
  by_cases hn : (a.is_nan || b.is_nan) = true
  · unfold is_equal_to_decimal
    rw [if_pos hn]
    by_cases hb : (a.is_nan && b.is_nan) = true
    · rw [if_pos hb]
      exact ⟨by omega, le_refl _⟩
    · rw [if_neg hb]
      exact ⟨le_refl _, by omega⟩
  · by_cases hi : (a.is_infinite || b.is_infinite) = true
    · unfold is_equal_to_decimal
      rw [if_neg hn, if_pos hi]
      by_cases hb : ((a.is_infinite && b.is_infinite) && FP.feq a b) = true
      · rw [if_pos hb]
        exact ⟨by omega, le_refl _⟩
      · rw [if_neg hb]
        exact ⟨le_refl _, by omega⟩
    · have hflags : a.is_nan = false ∧ b.is_nan = false ∧
          a.is_infinite = false ∧ b.is_infinite = false := by
        revert hn hi
        cases a.is_nan <;> cases b.is_nan <;> cases a.is_infinite <;> cases b.is_infinite <;>
          simp
      obtain ⟨f1, f2, f3, f4⟩ := hflags
      by_cases hr : cmpTest a b d = true
      · obtain ⟨s1, s2, s3, s4⟩ :=
          incLoop_spec (cmpTest a b) |P.min_10_exp| ((|P.min_10_exp| - d).toNat) d rfl h2 hr
        rw [is_equal_to_decimal_snd_of_true P a b d f1 f2 f3 f4 hr]
        by_cases hc : incLoop (cmpTest a b) |P.min_10_exp| d true < |P.min_10_exp|
        · have hgt : d < incLoop (cmpTest a b) |P.min_10_exp| d true := by
            rcases s4 with hce | hf
            · omega
            · rcases eq_or_lt_of_le s1 with he | h
              · rw [← he, hr] at hf
                exact absurd hf (by simp)
              · exact h
          rw [if_pos hc]
          constructor <;> omega
        · rw [if_neg hc]
          constructor <;> omega
      · have hrf : cmpTest a b d = false := by
          revert hr; cases cmpTest a b d <;> simp
        obtain ⟨s1, s2, s3, s4⟩ :=
          decLoop_spec (cmpTest a b) (-P.max_10_exp) ((d - -P.max_10_exp).toNat) d rfl h1 hrf
        rw [is_equal_to_decimal_snd_of_false P a b d f1 f2 f3 f4 hrf]
        constructor <;> omega

/-- Witness for C10 at `a = NaN`, `b = +Inf`, `d = 0` on the 32-bit
profile. -/
theorem is_equal_to_decimal_metric_range_witness :
    (-f32Precision.max_10_exp ≤ (0 : ℤ)) ∧ ((0 : ℤ) ≤ |f32Precision.min_10_exp|) ∧
    (-f32Precision.max_10_exp ≤ (is_equal_to_decimal f32Precision FP.nan (FP.inf true) 0).2 ∧
      (is_equal_to_decimal f32Precision FP.nan (FP.inf true) 0).2 ≤ |f32Precision.min_10_exp|) := by
  have ha : -f32Precision.max_10_exp ≤ (0 : ℤ) := by norm_num [f32Precision]
  have hb : (0 : ℤ) ≤ |f32Precision.min_10_exp| := by norm_num [f32Precision]
  exact ⟨ha, hb, is_equal_to_decimal_metric_range f32Precision FP.nan (FP.inf true) 0 ha hb⟩

/-- Claim C1 (corrected): for non-NaN, non-infinite operands and a requested
decimal inside `[-max_10_exp, min_10_exp.abs()]`, the achieved precision
returned by `is_equal_to_decimal` is the largest `d` in that range with
`|a-b| <= 1.5 * 10^(-d)` (the floor `-max_10_exp` when no such `d` exists),
except that when the relation holds at the requested decimal and at
`min_10_exp.abs() - 1` but fails at `min_10_exp.abs()`, the step-back after
the increment search is skipped and `min_10_exp.abs()` is returned. -/
theorem is_equal_to_decimal_achieved_precision (P : Precision) (a b : FP) (d : ℤ)
    (hna : a.is_nan = false) (hnb : b.is_nan = false)
    (hia : a.is_infinite = false) (hib : b.is_infinite = false)
    (h1 : -P.max_10_exp ≤ d) (h2 : d ≤ |P.min_10_exp|) :
    (¬ decimalHolds a.rat b.rat (-P.max_10_exp) →
      (is_equal_to_decimal P a b d).2 = -P.max_10_exp) ∧
    (decimalHolds a.rat b.rat (-P.max_10_exp) →
      ((decimalHolds a.rat b.rat (is_equal_to_decimal P a b d).2 ∧
        -P.max_10_exp ≤ (is_equal_to_decimal P a b d).2 ∧
        (is_equal_to_decimal P a b d).2 ≤ |P.min_10_exp| ∧
        ((is_equal_to_decimal P a b d).2 = |P.min_10_exp| ∨
          ¬ decimalHolds a.rat b.rat ((is_equal_to_decimal P a b d).2 + 1))) ∨
       ((is_equal_to_decimal P a b d).2 = |P.min_10_exp| ∧
        ¬ decimalHolds a.rat b.rat |P.min_10_exp| ∧
        decimalHolds a.rat b.rat (|P.min_10_exp| - 1) ∧
        decimalHolds a.rat b.rat d))) := by
  have hcmp : ∀ k, cmpTest a b k = decide (decimalHolds a.rat b.rat k) := fun k =>
    cmpTest_eq_decide a b k hna hnb hia hib
  by_cases hr : cmpTest a b d = true
  · have hRd : decimalHolds a.rat b.rat d := of_decide_eq_true ((hcmp d) ▸ hr)
    have hsnd := is_equal_to_decimal_snd_of_true P a b d hna hnb hia hib hr
    obtain ⟨s1, s2, s3, s4⟩ :=
      incLoop_spec (cmpTest a b) |P.min_10_exp| ((|P.min_10_exp| - d).toNat) d rfl h2 hr
    constructor
    · intro hnotfl
      exact absurd (decimalHolds_mono _ _ _ _ h1 hRd) hnotfl
    · intro hRfl
      by_cases hc : incLoop (cmpTest a b) |P.min_10_exp| d true < |P.min_10_exp|
      · have hta1 : cmpTest a b (incLoop (cmpTest a b) |P.min_10_exp| d true) = false := by
          rcases s4 with hce | hf
          · omega
          · exact hf
        have hgt : d < incLoop (cmpTest a b) |P.min_10_exp| d true := by
          rcases eq_or_lt_of_le s1 with he | h
          · rw [← he, hr] at hta1
            exact absurd hta1 (by simp)
          · exact h
        rw [hsnd, if_pos hc]
        left
        refine ⟨?_, by omega, by omega, Or.inr ?_⟩
        · have hm := s3 (incLoop (cmpTest a b) |P.min_10_exp| d true - 1) (by omega) (by omega)
          exact of_decide_eq_true ((hcmp _) ▸ hm)
        · have he : incLoop (cmpTest a b) |P.min_10_exp| d true - 1 + 1 =
              incLoop (cmpTest a b) |P.min_10_exp| d true := by omega
          rw [he]
          intro hR
          rw [hcmp _] at hta1
          simp [hR] at hta1
      · have hceq : incLoop (cmpTest a b) |P.min_10_exp| d true = |P.min_10_exp| := by omega
        rw [hsnd, if_neg hc]
        by_cases htc : cmpTest a b |P.min_10_exp| = true
        · left
          refine ⟨?_, by omega, by omega, Or.inl hceq⟩
          rw [hceq]
          exact of_decide_eq_true ((hcmp _) ▸ htc)
        · have htcf : cmpTest a b |P.min_10_exp| = false := by
            revert htc; cases cmpTest a b |P.min_10_exp| <;> simp
          have hdlt : d < |P.min_10_exp| := by
            rcases eq_or_lt_of_le h2 with he | h
            · rw [← he, hr] at htcf
              exact absurd htcf (by simp)
            · exact h
          have hRc1 : decimalHolds a.rat b.rat (|P.min_10_exp| - 1) := by
            have hm := s3 (|P.min_10_exp| - 1) (by omega) (by omega)
            exact of_decide_eq_true ((hcmp _) ▸ hm)
          right
          refine ⟨hceq, ?_, hRc1, hRd⟩
          intro hR
          rw [hcmp _] at htcf
          simp [hR] at htcf
  · have hrf : cmpTest a b d = false := by
      revert hr; cases cmpTest a b d <;> simp
    have hnRd : ¬ decimalHolds a.rat b.rat d := of_decide_eq_false ((hcmp d) ▸ hrf)
    have hsnd := is_equal_to_decimal_snd_of_false P a b d hna hnb hia hib hrf
    obtain ⟨s1, s2, s3, s4⟩ :=
      decLoop_spec (cmpTest a b) (-P.max_10_exp) ((d - -P.max_10_exp).toNat) d rfl h1 hrf
    constructor
    · intro hnotfl
      rcases s4 with hfl | ht
      · rw [hsnd]; exact hfl
      · have hRa2 : decimalHolds a.rat b.rat (decLoop (cmpTest a b) (-P.max_10_exp) d false) :=
          of_decide_eq_true ((hcmp _) ▸ ht)
        exact absurd (decimalHolds_mono _ _ _ _ s1 hRa2) hnotfl
    · intro hRfl
      left
      have hdlt : decLoop (cmpTest a b) (-P.max_10_exp) d false < d := by
        rcases eq_or_lt_of_le s2 with he | h
        · exfalso
          rcases s4 with hfl | ht
          · have hdfl : d = -P.max_10_exp := by omega
            exact hnRd (hdfl ▸ hRfl)
          · rw [he, hrf] at ht
            exact absurd ht (by simp)
        · exact h
      have hRa2 : decimalHolds a.rat b.rat (decLoop (cmpTest a b) (-P.max_10_exp) d false) := by
        rcases s4 with hfl | ht
        · rw [hfl]; exact hRfl
        · exact of_decide_eq_true ((hcmp _) ▸ ht)
      have hna2 : ¬ decimalHolds a.rat b.rat
          (decLoop (cmpTest a b) (-P.max_10_exp) d false + 1) := by
        have hm := s3 (decLoop (cmpTest a b) (-P.max_10_exp) d false + 1) (by omega) (by omega)
        exact of_decide_eq_false ((hcmp _) ▸ hm)
      rw [hsnd]
      exact ⟨hRa2, s1, by omega, Or.inr hna2⟩

/-- Counterexample to C1 as stated: on the 32-bit profile with
`a = 10⁻³⁶`, `b = 0` and requested decimal `36` (inside the legal range),
the code returns achieved precision `37 = min_10_exp.abs()`, yet the
relation `|a-b| <= 1.5 * 10^(-37)` fails at `37` while holding at `36`, and
`37` is not the floor `-38`: the result is not the largest decimal in range
for which the relation holds. -/
theorem decimal_search_ceiling_overshoot_cex :
    (is_equal_to_decimal f32Precision (FP.fin (1 / 10 ^ 36)) (FP.fin 0) 36).2 = 37 ∧
    ¬ decimalHolds ((1 : ℚ) / 10 ^ 36) 0 37 ∧
    decimalHolds ((1 : ℚ) / 10 ^ 36) 0 36 ∧
    ((37 : ℤ) ≠ -f32Precision.max_10_exp) ∧
    (-f32Precision.max_10_exp ≤ (36 : ℤ)) ∧ ((36 : ℤ) ≤ |f32Precision.min_10_exp|) := by
  have hm : |f32Precision.min_10_exp| = (37 : ℤ) := by norm_num [f32Precision]
  have habs : |(1 : ℚ) / 10 ^ 36 - 0| = 1 / 10 ^ 36 := by
    rw [sub_zero]
    exact abs_of_pos (by positivity)
  have hR36 : decimalHolds ((1 : ℚ) / 10 ^ 36) 0 36 := by
    unfold decimalHolds
    rw [habs]
    norm_num
  have hR37 : ¬ decimalHolds ((1 : ℚ) / 10 ^ 36) 0 37 := by
    unfold decimalHolds
    rw [habs]
    norm_num
  have ht36 : cmpTest (FP.fin (1 / 10 ^ 36)) (FP.fin 0) 36 = true := by
    rw [cmpTest_eq_decide (FP.fin (1 / 10 ^ 36)) (FP.fin 0) 36 rfl rfl rfl rfl,
      decide_eq_true_eq]
    exact hR36
  have ht37 : cmpTest (FP.fin (1 / 10 ^ 36)) (FP.fin 0) 37 = false := by
    rw [cmpTest_eq_decide (FP.fin (1 / 10 ^ 36)) (FP.fin 0) 37 rfl rfl rfl rfl,
      decide_eq_false_iff_not]
    exact hR37
  have hsnd := is_equal_to_decimal_snd_of_true f32Precision (FP.fin (1 / 10 ^ 36)) (FP.fin 0)
    36 rfl rfl rfl rfl ht36
  rw [hm] at hsnd
  have hloop : incLoop (cmpTest (FP.fin (1 / 10 ^ 36)) (FP.fin 0)) 37 36 true = 37 := by
    rw [incLoop_eq, if_pos ⟨rfl, by norm_num⟩, show (36 : ℤ) + 1 = 37 by norm_num, ht37,
      incLoop_of_false]
  rw [hloop, if_neg (lt_irrefl 37)] at hsnd
  refine ⟨hsnd, hR37, hR36, by norm_num [f32Precision], by norm_num [f32Precision],
    by rw [hm]; norm_num⟩

/-- Witness for the amended C1 at `a = 1`, `b = 0`, `d = 0` on the 32-bit
profile. -/
theorem is_equal_to_decimal_achieved_precision_witness :
    ((FP.fin (1 : ℚ)).is_nan = false) ∧ ((FP.fin (0 : ℚ)).is_nan = false) ∧
    ((FP.fin (1 : ℚ)).is_infinite = false) ∧ ((FP.fin (0 : ℚ)).is_infinite = false) ∧
    (-f32Precision.max_10_exp ≤ (0 : ℤ)) ∧ ((0 : ℤ) ≤ |f32Precision.min_10_exp|) ∧
    ((¬ decimalHolds (FP.fin (1 : ℚ)).rat (FP.fin (0 : ℚ)).rat (-f32Precision.max_10_exp) →
      (is_equal_to_decimal f32Precision (FP.fin 1) (FP.fin 0) 0).2 =
        -f32Precision.max_10_exp) ∧
     (decimalHolds (FP.fin (1 : ℚ)).rat (FP.fin (0 : ℚ)).rat (-f32Precision.max_10_exp) →
      ((decimalHolds (FP.fin (1 : ℚ)).rat (FP.fin (0 : ℚ)).rat
          (is_equal_to_decimal f32Precision (FP.fin 1) (FP.fin 0) 0).2 ∧
        -f32Precision.max_10_exp ≤ (is_equal_to_decimal f32Precision (FP.fin 1) (FP.fin 0) 0).2 ∧
        (is_equal_to_decimal f32Precision (FP.fin 1) (FP.fin 0) 0).2 ≤
          |f32Precision.min_10_exp| ∧
        ((is_equal_to_decimal f32Precision (FP.fin 1) (FP.fin 0) 0).2 =
            |f32Precision.min_10_exp| ∨
          ¬ decimalHolds (FP.fin (1 : ℚ)).rat (FP.fin (0 : ℚ)).rat
            ((is_equal_to_decimal f32Precision (FP.fin 1) (FP.fin 0) 0).2 + 1))) ∨
       ((is_equal_to_decimal f32Precision (FP.fin 1) (FP.fin 0) 0).2 =
          |f32Precision.min_10_exp| ∧
        ¬ decimalHolds (FP.fin (1 : ℚ)).rat (FP.fin (0 : ℚ)).rat |f32Precision.min_10_exp| ∧
        decimalHolds (FP.fin (1 : ℚ)).rat (FP.fin (0 : ℚ)).rat
          (|f32Precision.min_10_exp| - 1) ∧
        decimalHolds (FP.fin (1 : ℚ)).rat (FP.fin (0 : ℚ)).rat 0)))) :=
  ⟨rfl, rfl, rfl, rfl, by norm_num [f32Precision], by norm_num [f32Precision],
    is_equal_to_decimal_achieved_precision f32Precision (FP.fin 1) (FP.fin 0) 0
      rfl rfl rfl rfl (by norm_num [f32Precision]) (by norm_num [f32Precision])⟩

theorem incLoopGo_eq_incLoop (test : ℤ → Bool) (ceil : ℤ) :
    ∀ (n : ℕ) (x : ℤ) (r : Bool), (ceil - x).toNat ≤ n →
      incLoopGo n test ceil x r = incLoop test ceil x r := by
  intro n
  induction n with
  | zero =>
    intro x r h
    have hx : ¬ x < ceil := by omega
    rw [incLoop_eq, if_neg (fun hh => hx hh.2)]
    simp [incLoopGo]
  | succ n ih =>
    intro x r h
    rw [incLoop_eq]
    simp only [incLoopGo]
    by_cases hc : r = true ∧ x < ceil
    · rw [if_pos hc, if_pos hc]
      exact ih (x + 1) (test (x + 1)) (by omega)
    · rw [if_neg hc, if_neg hc]

theorem decLoopGo_eq_decLoop (test : ℤ → Bool) (floor : ℤ) :
    ∀ (n : ℕ) (x : ℤ) (r : Bool), (x - floor).toNat ≤ n →
      decLoopGo n test floor x r = decLoop test floor x r := by
  intro n
  induction n with
  | zero =>
    intro x r h
    have hx : ¬ floor < x := by omega
    rw [decLoop_eq, if_neg (fun hh => hx hh.2)]
    simp [decLoopGo]
  | succ n ih =>
    intro x r h
    rw [decLoop_eq]
    simp only [decLoopGo]
    by_cases hc : r = false ∧ floor < x
    · rw [if_pos hc, if_pos hc]
      exact ih (x - 1) (test (x - 1)) (by omega)
    · rw [if_neg hc, if_neg hc]

/-- Claim C9 (confirmed): the decimal-precision search terminates within the
fixed exponent range of the type: for a requested decimal inside
`[-max_10_exp, min_10_exp.abs()]`, running both search loops with any
iteration budget of at least `max_10_exp + min_10_exp.abs()` steps yields
the same (total) result as the unrestricted loops; every comparison
operation of the model is a total function. -/
theorem is_equal_to_decimal_fuel_stable (P : Precision) (a b : FP) (d : ℤ) (fuel : ℕ)
    (h1 : -P.max_10_exp ≤ d) (h2 : d ≤ |P.min_10_exp|)
    (hf : (P.max_10_exp + |P.min_10_exp|).toNat ≤ fuel) :
    is_equal_to_decimal_fuel fuel P a b d = is_equal_to_decimal P a b d := by
  have e1 : ∀ r, incLoopGo fuel (cmpTest a b) |P.min_10_exp| d r =
      incLoop (cmpTest a b) |P.min_10_exp| d r := fun r =>
    incLoopGo_eq_incLoop (cmpTest a b) |P.min_10_exp| fuel d r (by omega)
  have e2 : ∀ r, decLoopGo fuel (cmpTest a b) (-P.max_10_exp) d r =
      decLoop (cmpTest a b) (-P.max_10_exp) d r := fun r =>
    decLoopGo_eq_decLoop (cmpTest a b) (-P.max_10_exp) fuel d r (by omega)
  simp only [is_equal_to_decimal_fuel, is_equal_to_decimal, e1, e2]

/-- Witness for C9 at `a = 1`, `b = 0`, `d = 1`, fuel `75` on the 32-bit
profile. -/
theorem is_equal_to_decimal_fuel_stable_witness :
    (-f32Precision.max_10_exp ≤ (1 : ℤ)) ∧ ((1 : ℤ) ≤ |f32Precision.min_10_exp|) ∧
    ((f32Precision.max_10_exp + |f32Precision.min_10_exp|).toNat ≤ 75) ∧
    is_equal_to_decimal_fuel 75 f32Precision (FP.fin 1) (FP.fin 0) 1 =
      is_equal_to_decimal f32Precision (FP.fin 1) (FP.fin 0) 1 := by
  have ha : -f32Precision.max_10_exp ≤ (1 : ℤ) := by norm_num [f32Precision]
  have hb : (1 : ℤ) ≤ |f32Precision.min_10_exp| := by norm_num [f32Precision]
  have hc : (f32Precision.max_10_exp + |f32Precision.min_10_exp|).toNat ≤ 75 := by
    norm_num [f32Precision]
  exact ⟨ha, hb, hc,
    is_equal_to_decimal_fuel_stable f32Precision (FP.fin 1) (FP.fin 0) 1 75 ha hb hc⟩
